import Mathlib

/-!
Verification development for the styled-text tree builder of
`src/sky/engine/core/text/ParagraphBuilder.cpp`.

The builder is embedded shallowly: C++ `int32_t` values are `Int`s and their
two's-complement bit patterns are `Nat`s below `2 ^ 32`; C++ `float`/`double`
parameters are `Rat`; the render-object tree is an arena (`List Node`) with
parent back-pointers and ordered child lists; the cursor
(`m_currentRenderObject`) is an `Option Nat` index.  Calls that perform a
null-pointer dereference or an out-of-range buffer access (or fail the
source's `DCHECK` length assertions) return `none`.

Collaborator code that is not under `src/` (`RenderStyle`, `RenderObject`,
the locale-to-script mapping, the font selector) is modelled from the spec;
each such definition says so in its doc comment.
-/

namespace Engine

/-- Two's-complement 32-bit pattern of a C++ `int32_t` value, as a `Nat`. -/
def toUInt32Pat (i : Int) : Nat := (i % (2 ^ 32 : Int)).toNat

/-- Result of `getColorFromARGB`: Blink's `Color(red, green, blue, alpha)`
with each channel a byte. -/
structure Color where
  red : Nat
  green : Nat
  blue : Nat
  alpha : Nat
deriving DecidableEq

/-- Embeds `getColorFromARGB` (ParagraphBuilder.cpp lines 60-63): the argument
is the 32-bit pattern of the C++ `int argb`; the masks and shifts are those of
the source (`&` on the `int` and on `0xFF000000u` both act on the pattern). -/
def getColorFromARGB (argb : Nat) : Color :=
  ⟨(argb &&& 0x00FF0000) >>> 16, (argb &&& 0x0000FF00) >>> 8,
   (argb &&& 0x000000FF) >>> 0, (argb &&& 0xFF000000) >>> 24⟩

/-- Modelled from the spec: `StyleColor` wraps a color rather than being a raw
color (kept for a later "inherit current color" indirection). -/
structure StyleColor where
  resolvedColor : Color
deriving DecidableEq

/-- Blink `Length`: a value together with a percent flag; the builder only
ever constructs `Length(x, Percent)` values. -/
structure Length where
  value : Rat
  percent : Bool
deriving DecidableEq

/-- Modelled from the spec: the font description carries the font-selection
inputs (family, weight, style, size, spacings) plus script and orientation;
its class body is outside `src/`. -/
structure FontDescription where
  script : Nat
  specifiedSize : Rat
  computedSize : Rat
  isAbsoluteSize : Bool
  weight : Int
  style : Int
  family : String
  letterSpacing : Rat
  wordSpacing : Rat
  orientation : Nat
  nonCJKGlyphOrientation : Nat
deriving DecidableEq

/-- Modelled from the spec: default-constructed `FontDescription()` (defaults
live outside `src/`; no claim depends on these concrete values). -/
def FontDescription.default : FontDescription :=
  ⟨0, 12, 12, false, 400, 0, "", 0, 0, 0, 0⟩

/-- Modelled from the spec: the style record of §3 — color, decoration set,
decoration color (wrapped), decoration style, font description, line height,
alignment, RTL ordering policy, z-index, modify flag, locale.  Enum values are
kept as the raw `static_cast` integers the source stores. -/
structure RenderStyle where
  color : Color
  textDecoration : Int
  appliedTextDecorations : Int
  textDecorationColor : StyleColor
  textDecorationStyle : Int
  fontDescription : FontDescription
  lineHeight : Length
  textAlign : Int
  rtlOrdering : Nat
  zIndex : Int
  userModify : Nat
  locale : String
deriving DecidableEq

/-- C++ enum values used by `createRenderView`. -/
def LogicalOrder : Nat := 0

/-- Blink `READ_ONLY` user-modify enum value. -/
def ReadOnlyModify : Nat := 0

/-- Blink `READ_WRITE` user-modify enum value. -/
def ReadWriteModify : Nat := 1

/-- Blink `Horizontal` font orientation enum value. -/
def Horizontal : Nat := 0

/-- Blink `NonCJKGlyphOrientationVerticalRight` enum value. -/
def NonCJKGlyphOrientationVerticalRight : Nat := 0

/-- Modelled from the spec: `RenderStyle::create()` defaults (outside `src/`;
no claim depends on these concrete values). -/
def RenderStyle.create : RenderStyle :=
  ⟨⟨0, 0, 0, 255⟩, 0, 0, ⟨⟨0, 0, 0, 255⟩⟩, 0, FontDescription.default,
   ⟨0, false⟩, 0, LogicalOrder, 0, ReadWriteModify, ""⟩

/-- Modelled from the spec: `RenderStyle::inheritFrom` realises the full
cascade of §3 — the fresh style becomes a copy of the parent style, with no
partial inheritance. -/
def RenderStyle.inheritFrom (_self parent : RenderStyle) : RenderStyle := parent

/-- Modelled from the spec: `RenderStyle::applyTextDecorations` re-derives the
applied (rendered) decoration set from the current text-decoration value. -/
def RenderStyle.applyTextDecorations (s : RenderStyle) : RenderStyle :=
  { s with appliedTextDecorations := s.textDecoration }

/-- Modelled from the spec: `RenderStyle::clone` copies the style. -/
def RenderStyle.clone (s : RenderStyle) : RenderStyle := s

/-- Embeds `getComputedSizeFromSpecifiedSize` (lines 33-37): sizes below the
`float` machine epsilon `2 ^ (-23)` collapse the computed size to zero. -/
def floatEpsilon : Rat := 1 / 2 ^ 23

/-- Embeds `getComputedSizeFromSpecifiedSize` (ParagraphBuilder.cpp 33-37). -/
def getComputedSizeFromSpecifiedSize (specifiedSize : Rat) : Rat :=
  if specifiedSize < floatEpsilon then 0 else specifiedSize

/-- Modelled from the spec: the locale-to-script mapping collaborator
(`localeToScriptCodeForFontSelection`) is outside `src/`; modelled as a fixed
total mapping. -/
def localeToScriptCodeForFontSelection (_locale : String) : Nat := 0

/-- Embeds `createFontForDocument` (lines 39-58): script from locale, the
14-unit Material default size, horizontal orientation, vertical-right non-CJK
glyph orientation.  The trailing `font().update(...)` resync is an external
font-selector effect. -/
def createFontForDocument (style : RenderStyle) : RenderStyle :=
  let fd := FontDescription.default
  let fd := { fd with script := localeToScriptCodeForFontSelection style.locale }
  let fd := { fd with specifiedSize := 14, computedSize := 14 }
  let fd := { fd with orientation := Horizontal,
                      nonCJKGlyphOrientation := NonCJKGlyphOrientationVerticalRight }
  { style with fontDescription := fd }

-- TextStyle record layout (ParagraphBuilder.cpp 65-89)

/-- TextStyle color slot index. -/
def tsColorIndex : Nat := 1

/-- TextStyle text-decoration slot index. -/
def tsTextDecorationIndex : Nat := 2

/-- TextStyle decoration-color slot index. -/
def tsTextDecorationColorIndex : Nat := 3

/-- TextStyle decoration-style slot index. -/
def tsTextDecorationStyleIndex : Nat := 4

/-- TextStyle font-weight slot index. -/
def tsFontWeightIndex : Nat := 5

/-- TextStyle font-style slot index. -/
def tsFontStyleIndex : Nat := 6

/-- TextStyle font-family bit index (flag only; the value is out-of-band). -/
def tsFontFamilyIndex : Nat := 7

/-- TextStyle font-size bit index (value out-of-band). -/
def tsFontSizeIndex : Nat := 8

/-- TextStyle letter-spacing bit index (value out-of-band). -/
def tsLetterSpacingIndex : Nat := 9

/-- TextStyle word-spacing bit index (value out-of-band). -/
def tsWordSpacingIndex : Nat := 10

/-- TextStyle height bit index (value out-of-band). -/
def tsHeightIndex : Nat := 11

/-- TextStyle color mask. -/
def tsColorMask : Nat := 1 <<< tsColorIndex

/-- TextStyle text-decoration mask. -/
def tsTextDecorationMask : Nat := 1 <<< tsTextDecorationIndex

/-- TextStyle decoration-color mask. -/
def tsTextDecorationColorMask : Nat := 1 <<< tsTextDecorationColorIndex

/-- TextStyle decoration-style mask. -/
def tsTextDecorationStyleMask : Nat := 1 <<< tsTextDecorationStyleIndex

/-- TextStyle font-weight mask. -/
def tsFontWeightMask : Nat := 1 <<< tsFontWeightIndex

/-- TextStyle font-style mask. -/
def tsFontStyleMask : Nat := 1 <<< tsFontStyleIndex

/-- TextStyle font-family mask. -/
def tsFontFamilyMask : Nat := 1 <<< tsFontFamilyIndex

/-- TextStyle font-size mask. -/
def tsFontSizeMask : Nat := 1 <<< tsFontSizeIndex

/-- TextStyle letter-spacing mask. -/
def tsLetterSpacingMask : Nat := 1 <<< tsLetterSpacingIndex

/-- TextStyle word-spacing mask. -/
def tsWordSpacingMask : Nat := 1 <<< tsWordSpacingIndex

/-- TextStyle height mask. -/
def tsHeightMask : Nat := 1 <<< tsHeightIndex

-- ParagraphStyle record layout (ParagraphBuilder.cpp 91-107)

/-- ParagraphStyle text-align slot index. -/
def psTextAlignIndex : Nat := 1

/-- ParagraphStyle text-baseline slot index (decoded but unimplemented). -/
def psTextBaselineIndex : Nat := 2

/-- ParagraphStyle font-weight slot index. -/
def psFontWeightIndex : Nat := 3

/-- ParagraphStyle font-style slot index. -/
def psFontStyleIndex : Nat := 4

/-- ParagraphStyle font-family bit index (flag only; value out-of-band). -/
def psFontFamilyIndex : Nat := 5

/-- ParagraphStyle font-size bit index (value out-of-band). -/
def psFontSizeIndex : Nat := 6

/-- ParagraphStyle line-height bit index (value out-of-band). -/
def psLineHeightIndex : Nat := 7

/-- ParagraphStyle text-align mask. -/
def psTextAlignMask : Nat := 1 <<< psTextAlignIndex

/-- ParagraphStyle text-baseline mask. -/
def psTextBaselineMask : Nat := 1 <<< psTextBaselineIndex

/-- ParagraphStyle font-weight mask. -/
def psFontWeightMask : Nat := 1 <<< psFontWeightIndex

/-- ParagraphStyle font-style mask. -/
def psFontStyleMask : Nat := 1 <<< psFontStyleIndex

/-- ParagraphStyle font-family mask. -/
def psFontFamilyMask : Nat := 1 <<< psFontFamilyIndex

/-- ParagraphStyle font-size mask. -/
def psFontSizeMask : Nat := 1 <<< psFontSizeIndex

/-- ParagraphStyle line-height mask. -/
def psLineHeightMask : Nat := 1 <<< psLineHeightIndex

/-- Render-object class of a tree node, named after the C++ classes:
the render view (result container), the render paragraph (implicit top-level
span, where the cursor starts), pushed inline spans, and text leaves. -/
inductive NodeKind where
  | renderView
  | renderParagraph
  | renderInline
  | renderText
deriving DecidableEq

/-- A render object: class, text payload (meaningful for `renderText`),
style, parent back-pointer and ordered child list (indices into the arena). -/
structure Node where
  kind : NodeKind
  text : String
  style : RenderStyle
  parent : Option Nat
  children : List Nat
deriving DecidableEq

/-- Modelled from the spec: `RenderObject::addChild` (outside `src/`) appends
the child as the parent's last child and sets the child's parent back-pointer.
The new node is appended to the arena; its index is the old arena length. -/
def addChildNode (nodes : List Node) (parentId : Nat) (child : Node) : List Node :=
  let grown := nodes ++ [{ child with parent := some parentId }]
  match grown[parentId]? with
  | some p => grown.set parentId { p with children := p.children ++ [nodes.length] }
  | none => grown

/-- The builder state: the node arena, the indices of `m_renderView` and
`m_renderParagraph`, and the cursor `m_currentRenderObject` (an index, or
`none` for the null pointer). -/
structure BuilderState where
  nodes : List Node
  renderView : Nat
  renderParagraph : Nat
  current : Option Nat
deriving DecidableEq

/-- Embeds `ParagraphBuilder::createRenderView` (lines 293-302): logical RTL
ordering, z-index 0, read-only modify flag, then `createFontForDocument`. -/
def createRenderViewStyle : RenderStyle :=
  let style := RenderStyle.create
  let style := { style with rtlOrdering := LogicalOrder }
  let style := { style with zIndex := 0 }
  let style := { style with userModify := ReadOnlyModify }
  createFontForDocument style

/-- Embeds `createRenderParagraph` (lines 23-31): a fresh style inheriting
from the parent style (the `PARAGRAPH` display is carried by the node kind). -/
def createRenderParagraphStyle (parentStyle : RenderStyle) : RenderStyle :=
  RenderStyle.create.inheritFrom parentStyle

/-- Embeds the `ParagraphBuilder` constructor (lines 131-136): create the
render view, create the render paragraph from the view's style, point the
cursor at the paragraph, and add the paragraph as the view's child. -/
def construct : BuilderState :=
  let viewStyle := createRenderViewStyle
  let viewNode : Node := ⟨NodeKind.renderView, "", viewStyle, none, []⟩
  let paraNode : Node :=
    ⟨NodeKind.renderParagraph, "", createRenderParagraphStyle viewStyle, none, []⟩
  ⟨addChildNode [viewNode] 0 paraNode, 0, 1, some 1⟩

/-- Embeds the font-description block of `pushStyle` (lines 172-205): the
guarded per-field updates on a copy of the style's font description.  The
caller performs the single `setFontDescription` + `font().update` resync. -/
def applyTsFontFields (mask : Nat) (encoded : List Int) (fontFamily : String)
    (fontSize letterSpacing wordSpacing : Rat) (fd : FontDescription) :
    Option FontDescription :=
  (if mask &&& tsFontWeightMask ≠ 0 then
     (encoded[tsFontWeightIndex]?).bind fun v => some { fd with weight := v }
   else some fd).bind fun fd =>
  (if mask &&& tsFontStyleMask ≠ 0 then
     (encoded[tsFontStyleIndex]?).bind fun v => some { fd with style := v }
   else some fd).bind fun fd =>
  let fd := if mask &&& tsFontFamilyMask ≠ 0 then { fd with family := fontFamily } else fd
  let fd := if mask &&& tsFontSizeMask ≠ 0 then
      { fd with specifiedSize := fontSize, isAbsoluteSize := true,
                computedSize := getComputedSizeFromSpecifiedSize fontSize }
    else fd
  let fd := if mask &&& tsLetterSpacingMask ≠ 0 then
      { fd with letterSpacing := letterSpacing } else fd
  let fd := if mask &&& tsWordSpacingMask ≠ 0 then
      { fd with wordSpacing := wordSpacing } else fd
  some fd

/-- Embeds the style computation of `pushStyle` (lines 150-209) on the
cursor's style: returns the new span style, the number of font-selector
resyncs (`font().update` calls) and the number of `applyTextDecorations`
runs performed by the call. -/
def pushStyleResolve (curStyle : RenderStyle) (encoded : List Int)
    (fontFamily : String) (fontSize letterSpacing wordSpacing height : Rat) :
    Option (RenderStyle × Nat × Nat) :=
  (encoded[0]?).bind fun m =>
  let mask := toUInt32Pat m
  let style := RenderStyle.create.inheritFrom curStyle
  (if mask &&& tsColorMask ≠ 0 then
     (encoded[tsColorIndex]?).bind fun v =>
       some { style with color := getColorFromARGB (toUInt32Pat v) }
   else some style).bind fun style =>
  (if mask &&& tsTextDecorationMask ≠ 0 then
     (encoded[tsTextDecorationIndex]?).bind fun v =>
       some (RenderStyle.applyTextDecorations { style with textDecoration := v }, 1)
   else some (style, 0)).bind fun deco =>
  (if mask &&& tsTextDecorationColorMask ≠ 0 then
     (encoded[tsTextDecorationColorIndex]?).bind fun v =>
       some { deco.1 with
                textDecorationColor := StyleColor.mk (getColorFromARGB (toUInt32Pat v)) }
   else some deco.1).bind fun style =>
  (if mask &&& tsTextDecorationStyleMask ≠ 0 then
     (encoded[tsTextDecorationStyleIndex]?).bind fun v =>
       some { style with textDecorationStyle := v }
   else some style).bind fun style =>
  (if mask &&& (tsFontWeightMask ||| tsFontStyleMask ||| tsFontFamilyMask |||
       tsFontSizeMask ||| tsLetterSpacingMask ||| tsWordSpacingMask) ≠ 0 then
     (applyTsFontFields mask encoded fontFamily fontSize letterSpacing
        wordSpacing style.fontDescription).bind fun fd =>
       some ({ style with fontDescription := fd }, 1)
   else some (style, 0)).bind fun font =>
  let style := font.1
  let style := if mask &&& tsHeightMask ≠ 0 then
      { style with lineHeight := Length.mk (height * 100) true } else style
  some (style, font.2, deco.2)

/-- Embeds `ParagraphBuilder::pushStyle` (lines 143-217): the `DCHECK` on the
record length, the style resolution against the cursor's style (a null cursor
is dereferenced — modelled as `none`), the new inline span appended as the
cursor's last child, and the cursor moving to the new span.  Returns the new
state, the resync count and the `applyTextDecorations` count of the call. -/
def pushStyle (st : BuilderState) (encoded : List Int) (fontFamily : String)
    (fontSize letterSpacing wordSpacing height : Rat) :
    Option (BuilderState × Nat × Nat) :=
  if encoded.length ≠ 7 then none else
  st.current.bind fun cur =>
  (st.nodes[cur]?).bind fun curNode =>
  (pushStyleResolve curNode.style encoded fontFamily fontSize
     letterSpacing wordSpacing height).bind fun res =>
  let span : Node := ⟨NodeKind.renderInline, "", res.1, none, []⟩
  some (⟨addChildNode st.nodes cur span, st.renderView, st.renderParagraph,
          some st.nodes.length⟩, res.2)

/-- Embeds `ParagraphBuilder::pop` (lines 219-222): a pure cursor move to the
parent when the cursor is non-null. -/
def pop (st : BuilderState) : BuilderState :=
  match st.current with
  | none => st
  | some cur => { st with current := (st.nodes[cur]?).bind Node.parent }

/-- Embeds `ParagraphBuilder::addText` (lines 224-232): a guarded no-op on a
null cursor; otherwise a text leaf with a directly inherited style is appended
as the cursor's last child. -/
def addText (st : BuilderState) (text : String) : BuilderState :=
  match st.current with
  | none => st
  | some cur =>
    match st.nodes[cur]? with
    | none => st
    | some curNode =>
      let style := RenderStyle.create.inheritFrom curNode.style
      let leaf : Node := ⟨NodeKind.renderText, text, style, none, []⟩
      { st with nodes := addChildNode st.nodes cur leaf }

/-- Embeds the font-description block of `build` (lines 252-279). -/
def applyPsFontFields (mask : Nat) (encoded : List Int) (fontFamily : String)
    (fontSize : Rat) (fd : FontDescription) : Option FontDescription :=
  (if mask &&& psFontWeightMask ≠ 0 then
     (encoded[psFontWeightIndex]?).bind fun v => some { fd with weight := v }
   else some fd).bind fun fd =>
  (if mask &&& psFontStyleMask ≠ 0 then
     (encoded[psFontStyleIndex]?).bind fun v => some { fd with style := v }
   else some fd).bind fun fd =>
  let fd := if mask &&& psFontFamilyMask ≠ 0 then { fd with family := fontFamily } else fd
  let fd := if mask &&& psFontSizeMask ≠ 0 then
      { fd with specifiedSize := fontSize, isAbsoluteSize := true,
                computedSize := getComputedSizeFromSpecifiedSize fontSize }
    else fd
  some fd

/-- Embeds the paragraph-style computation of `build` (lines 241-283) on the
render paragraph's cloned style; returns the new style and the resync count.
The text-baseline bit is decoded but intentionally unimplemented (the source
block is an empty TODO). -/
def buildResolve (paraStyle : RenderStyle) (encoded : List Int)
    (fontFamily : String) (fontSize lineHeight : Rat) (mask : Nat) :
    Option (RenderStyle × Nat) :=
  let style := paraStyle.clone
  (if mask &&& psTextAlignMask ≠ 0 then
     (encoded[psTextAlignIndex]?).bind fun v => some { style with textAlign := v }
   else some style).bind fun style =>
  (if mask &&& (psFontWeightMask ||| psFontStyleMask ||| psFontFamilyMask |||
       psFontSizeMask) ≠ 0 then
     (applyPsFontFields mask encoded fontFamily fontSize style.fontDescription).bind
       fun fd => some ({ style with fontDescription := fd }, 1)
   else some (style, 0)).bind fun font =>
  let style := font.1
  let style := if mask &&& psLineHeightMask ≠ 0 then
      { style with lineHeight := Length.mk (lineHeight * 100) true } else style
  some (style, font.2)

/-- Embeds `ParagraphBuilder::build` (lines 234-291): the `DCHECK` on the
record length; when the mask is nonzero the render paragraph's style is
replaced by the resolved clone; the cursor is cleared; the render view is the
released result.  Returns the new state and the resync count of the call. -/
def build (st : BuilderState) (encoded : List Int) (fontFamily : String)
    (fontSize lineHeight : Rat) : Option (BuilderState × Nat) :=
  if encoded.length ≠ 5 then none else
  (encoded[0]?).bind fun m =>
  let mask := toUInt32Pat m
  if mask ≠ 0 then
    (st.nodes[st.renderParagraph]?).bind fun para =>
    (buildResolve para.style encoded fontFamily fontSize lineHeight mask).bind fun res =>
    some (⟨st.nodes.set st.renderParagraph { para with style := res.1 },
            st.renderView, st.renderParagraph, none⟩, res.2)
  else
    some (⟨st.nodes, st.renderView, st.renderParagraph, none⟩, 0)

/-- Packing of four decoded byte components back into a 32-bit ARGB integer,
alpha-high (the caller-side inverse of `getColorFromARGB`; the source has no
packing function — this follows the spec's byte order [31:24]=alpha,
[23:16]=red, [15:8]=green, [7:0]=blue). -/
def packARGB (c : Color) : Nat :=
  ((c.alpha * 2 ^ 8 + c.red) * 2 ^ 8 + c.green) * 2 ^ 8 + c.blue

/-- Test driver: one `pushStyle` call with an all-zero 7-slot record and
default out-of-band parameters (keeps the state on failure, which cannot
happen from reachable states with a live cursor). -/
def pushOnce (st : BuilderState) : BuilderState :=
  match pushStyle st [0, 0, 0, 0, 0, 0, 0] "" 0 0 0 0 with
  | some r => r.1
  | none => st

/-- Test driver: `n` successive `pushOnce` calls. -/
def pushN : Nat → BuilderState → BuilderState
  | 0, st => st
  | n + 1, st => pushOnce (pushN n st)

/-- Argument tuple of one `pushStyle` call: the diff record and the
out-of-band string/float parameters. -/
structure PushCall where
  encoded : List Int
  fontFamily : String
  fontSize : Rat
  letterSpacing : Rat
  wordSpacing : Rat
  height : Rat

/-- Test driver: one `pushStyle` call with arbitrary arguments (keeps the
state on failure, which cannot happen for a 7-slot record and a live
cursor). -/
def pushCallStep (st : BuilderState) (c : PushCall) : BuilderState :=
  match pushStyle st c.encoded c.fontFamily c.fontSize c.letterSpacing
      c.wordSpacing c.height with
  | some r => r.1
  | none => st

/-- Test driver: a sequence of `pushStyle` calls with arbitrary arguments,
applied first to last. -/
def pushSeq : List PushCall → BuilderState → BuilderState
  | [], st => st
  | c :: rest, st => pushSeq rest (pushCallStep st c)

/-- Test driver: `n` successive `pop` calls. -/
def popN : Nat → BuilderState → BuilderState
  | 0, st => st
  | n + 1, st => pop (popN n st)

/-- Number of parent-pointer steps from node `i` to a parentless node
(fuel-bounded walk; with fuel at least the arena size this is the depth of
`i` below the root on well-founded trees). -/
def depthToRoot (nodes : List Node) : Nat → Nat → Nat
  | 0, _ => 0
  | fuel + 1, i =>
    match nodes[i]? with
    | some nd =>
      match nd.parent with
      | some q => depthToRoot nodes fuel q + 1
      | none => 0
    | none => 0

/-- Verification predicate: the builder state is the linear chain the test
driver `pushN` produces — render view 0, render paragraph 1, and every node's
parent and child list forming a single path. -/
def isChainState (st : BuilderState) (n : Nat) : Prop :=
  st.renderView = 0 ∧ st.renderParagraph = 1 ∧
  st.nodes.length = n + 2 ∧
  ∀ i, i < n + 2 →
    ((st.nodes[i]?).map Node.parent = some (if i = 0 then none else some (i - 1)) ∧
     (st.nodes[i]?).map Node.children = some (if i = n + 1 then [] else [i + 1]))

theorem addChildNode_length (nodes : List Node) (p : Nat) (c : Node) :
    (addChildNode nodes p c).length = nodes.length + 1 := by
  simp only [addChildNode]
  split <;> simp

theorem addChildNode_get_old (nodes : List Node) (p : Nat) (c : Node)
    (i : Nat) (hi : i < nodes.length) (hip : i ≠ p) :
    (addChildNode nodes p c)[i]? = nodes[i]? := by
  simp only [addChildNode]
  split
  · rw [List.getElem?_set_ne (by omega), List.getElem?_append, if_pos hi]
  · rw [List.getElem?_append, if_pos hi]

theorem addChildNode_get_parent (nodes : List Node) (p : Nat) (c : Node)
    (pn : Node) (hp : nodes[p]? = some pn) :
    (addChildNode nodes p c)[p]? =
      some { pn with children := pn.children ++ [nodes.length] } := by
  have hplen : p < nodes.length := by
    by_contra h
    rw [List.getElem?_eq_none (by omega)] at hp
    exact Option.noConfusion hp
  simp only [addChildNode]
  have happ : (nodes ++ [{ c with parent := some p }])[p]? = some pn := by
    rw [List.getElem?_append, if_pos hplen]; exact hp
  split
  · next pn' heq =>
    rw [happ] at heq
    cases heq
    rw [List.getElem?_set_self (by simp; omega)]
  · next heq => rw [happ] at heq; exact Option.noConfusion heq

theorem addChildNode_get_new (nodes : List Node) (p : Nat) (c : Node)
    (hp : p < nodes.length) :
    (addChildNode nodes p c)[nodes.length]? = some { c with parent := some p } := by
  simp only [addChildNode]
  have happ : (nodes ++ [{ c with parent := some p }])[nodes.length]? =
      some { c with parent := some p } := by simp
  split
  · rw [List.getElem?_set_ne (by omega)]; exact happ
  · exact happ



/-- Claim C1, counterexample: in the freshly constructed builder the cursor is at the implicit top-level span (the render paragraph), yet one `pop` leaves the cursor non-null (it moves to the render view) — refuting that the cursor becomes null exactly when the node popped from was the implicit top-level span. -/
theorem C1_counterexample : construct.current = some construct.renderParagraph ∧
    (pop construct).current ≠ none := by decide

/-- Claim C1, amended: `pop` with a non-null cursor moves the cursor to the popped-from node's parent and never deletes or mutates any node; the cursor becomes null exactly when the popped-from node has no parent — that node is the Root (render view), one pop beyond the implicit top-level span: popping from the implicit span moves the cursor to the Root, and one further pop nulls it. -/
theorem C1_pop_is_pure_cursor_move (st : BuilderState) (cur : Nat) (nd : Node)
    (hc : st.current = some cur) (hn : st.nodes[cur]? = some nd) :
    (pop st).nodes = st.nodes ∧
    (pop st).renderView = st.renderView ∧
    (pop st).renderParagraph = st.renderParagraph ∧
    (pop st).current = nd.parent ∧
    ((pop st).current = none ↔ nd.parent = none) ∧
    (pop construct).current = some construct.renderView ∧
    (pop (pop construct)).current = none := by
  refine ⟨?_, ?_, ?_, ?_, ?_, by decide, by decide⟩ <;>
    simp [pop, hc, hn]

/-- Claim C2 (code bug): with a null cursor `pushStyle` is not a silent no-op — the source dereferences the null `m_currentRenderObject` (crash, modelled as `none`); evaluated concretely after two pops and proven for every null-cursor state. -/
theorem C2_pushStyle_null_cursor (st : BuilderState) (encoded : List Int)
    (fontFamily : String) (fontSize letterSpacing wordSpacing height : Rat)
    (hc : st.current = none) :
    (popN 2 construct).current = none ∧
    pushStyle (popN 2 construct) [0, 0, 0, 0, 0, 0, 0] "" 0 0 0 0 = none ∧
    pushStyle st encoded fontFamily fontSize letterSpacing wordSpacing height = none := by
  refine ⟨by decide, by decide, ?_⟩
  by_cases hl : encoded.length = 7 <;> simp [pushStyle, hc, hl]

/-- Claim C10: `addText` with the empty string and a non-null cursor still creates a text-run node carrying empty text and appends it as the cursor's last child (there is no emptiness check); the no-node case occurs only when the cursor is null, where `addText` returns the state unchanged. -/
theorem C10_addText_empty (st : BuilderState) (cur : Nat) (nd : Node)
    (hc : st.current = some cur) (hn : st.nodes[cur]? = some nd) :
    (addText st ("")).nodes.length = st.nodes.length + 1 ∧
    (addText st ("")).nodes[st.nodes.length]? =
      some ⟨NodeKind.renderText, "", RenderStyle.create.inheritFrom nd.style, some cur, []⟩ ∧
    ((addText st ("")).nodes[cur]?) = some { nd with children := nd.children ++ [st.nodes.length] } ∧
    (addText st ("")).current = st.current ∧
    (∀ st2 t, BuilderState.current st2 = none → addText st2 t = st2) := by
  have hcl : cur < st.nodes.length := by
    by_contra h
    rw [List.getElem?_eq_none (by omega)] at hn
    exact Option.noConfusion hn
  have hbody : (addText st ("")).nodes = addChildNode st.nodes cur
      ⟨NodeKind.renderText, "", RenderStyle.create.inheritFrom nd.style, none, []⟩ := by
    simp [addText, hc, hn]
  have hcur : (addText st ("")).current = st.current := by
    simp [addText, hc, hn]
  refine ⟨?_, ?_, ?_, hcur, ?_⟩
  · rw [hbody]; exact addChildNode_length _ _ _
  · rw [hbody]
    exact addChildNode_get_new _ _ _ hcl
  · rw [hbody]
    exact addChildNode_get_parent _ _ _ _ hn
  · intro st2 t h2
    simp [addText, h2]

theorem isSome_bind_of {α β : Type} {x : Option α} {k : α → Option β}
    (hx : x.isSome) (hk : ∀ a, (k a).isSome) : (x.bind k).isSome := by
  cases x
  · simp at hx
  · simpa using hk _

theorem isSome_ite {α : Type} (c : Prop) [Decidable c] {x y : Option α}
    (hx : x.isSome) (hy : y.isSome) : (if c then x else y).isSome := by
  split <;> assumption

theorem applyTsFontFields_isSome (mask : Nat) (enc : List Int) (f : String)
    (s l w : Rat) (fd : FontDescription)
    (h5 : (enc[tsFontWeightIndex]?).isSome) (h6 : (enc[tsFontStyleIndex]?).isSome) :
    (applyTsFontFields mask enc f s l w fd).isSome := by
  unfold applyTsFontFields
  apply isSome_bind_of
  · exact isSome_ite _ (isSome_bind_of h5 fun _ => by simp) (by simp)
  · intro fd1
    apply isSome_bind_of
    · exact isSome_ite _ (isSome_bind_of h6 fun _ => by simp) (by simp)
    · intro fd2
      simp

theorem pushStyleResolve_isSome (curStyle : RenderStyle) (enc : List Int)
    (f : String) (s l w h : Rat)
    (h0 : (enc[0]?).isSome) (h1 : (enc[tsColorIndex]?).isSome)
    (h2 : (enc[tsTextDecorationIndex]?).isSome)
    (h3 : (enc[tsTextDecorationColorIndex]?).isSome)
    (h4 : (enc[tsTextDecorationStyleIndex]?).isSome)
    (h5 : (enc[tsFontWeightIndex]?).isSome) (h6 : (enc[tsFontStyleIndex]?).isSome) :
    (pushStyleResolve curStyle enc f s l w h).isSome := by
  unfold pushStyleResolve
  apply isSome_bind_of h0
  intro m
  apply isSome_bind_of
  · exact isSome_ite _ (isSome_bind_of h1 fun _ => by simp) (by simp)
  intro st1
  apply isSome_bind_of
  · exact isSome_ite _ (isSome_bind_of h2 fun _ => by simp) (by simp)
  intro st2
  apply isSome_bind_of
  · exact isSome_ite _ (isSome_bind_of h3 fun _ => by simp) (by simp)
  intro st3
  apply isSome_bind_of
  · exact isSome_ite _ (isSome_bind_of h4 fun _ => by simp) (by simp)
  intro st4
  apply isSome_bind_of
  · refine isSome_ite _ ?_ (by simp)
    exact isSome_bind_of (applyTsFontFields_isSome _ _ _ _ _ _ _ h5 h6) fun _ => by simp
  intro st5
  simp

theorem applyPsFontFields_isSome (mask : Nat) (enc : List Int) (f : String)
    (s : Rat) (fd : FontDescription)
    (h3 : (enc[psFontWeightIndex]?).isSome) (h4 : (enc[psFontStyleIndex]?).isSome) :
    (applyPsFontFields mask enc f s fd).isSome := by
  unfold applyPsFontFields
  apply isSome_bind_of
  · exact isSome_ite _ (isSome_bind_of h3 fun _ => by simp) (by simp)
  · intro fd1
    apply isSome_bind_of
    · exact isSome_ite _ (isSome_bind_of h4 fun _ => by simp) (by simp)
    · intro fd2
      simp

theorem buildResolve_isSome (paraStyle : RenderStyle) (enc : List Int)
    (f : String) (s lh : Rat) (mask : Nat)
    (h1 : (enc[psTextAlignIndex]?).isSome)
    (h3 : (enc[psFontWeightIndex]?).isSome) (h4 : (enc[psFontStyleIndex]?).isSome) :
    (buildResolve paraStyle enc f s lh mask).isSome := by
  unfold buildResolve
  apply isSome_bind_of
  · exact isSome_ite _ (isSome_bind_of h1 fun _ => by simp) (by simp)
  intro st1
  apply isSome_bind_of
  · refine isSome_ite _ ?_ (by simp)
    exact isSome_bind_of (applyPsFontFields_isSome _ _ _ _ _ h3 h4) fun _ => by simp
  intro st2
  simp

/-- Claim C3, counterexample: a 7-slot TextStyle record with every one of the eleven mask bits set is accepted (no out-of-bounds access, not rejected despite being shorter than 12), while a 12-slot record — the length the claim requires — is refused by the length assertion. -/
theorem C3_counterexample :
    (pushStyle construct [4094, 1, 1, 2, 3, 400, 1] "serif" 10 1 1 2).isSome ∧
    pushStyle construct [2, 16711680, 0, 0, 0, 0, 0, 0, 0, 0, 0, 0] "" 0 0 0 0 = none ∧
    ([4094, 1, 1, 2, 3, 400, 1] : List Int).length < 12 := by
  refine ⟨by decide, by decide, by decide⟩

/-- Claim C3, amended: the record-length assertions demand exactly 7 slots for a TextStyle diff and exactly 5 for a ParagraphStyle diff, and run before any field access; those lengths cover every in-record field read (highest indices 6 and 4 — fields with higher bit indices carry their values out-of-band), so a record passing the assertion is never accessed out of bounds. -/
theorem C3_record_length (st : BuilderState) (enc : List Int) (f : String)
    (s l w h : Rat) (cur : Nat) (nd : Node)
    (hc : st.current = some cur) (hn : st.nodes[cur]? = some nd) :
    (∀ st2 enc2 f2 s2 l2 w2 h2, List.length enc2 ≠ 7 →
       pushStyle st2 enc2 f2 s2 l2 w2 h2 = none) ∧
    (∀ st2 enc2 f2 s2 lh2, List.length enc2 ≠ 5 → build st2 enc2 f2 s2 lh2 = none) ∧
    (enc.length = 7 → (pushStyle st enc f s l w h).isSome) ∧
    (∀ st2 enc2 f2 s2 lh2 p, List.length enc2 = 5 →
       (BuilderState.nodes st2)[BuilderState.renderParagraph st2]? = some p →
       (build st2 enc2 f2 s2 lh2).isSome) := by
  refine ⟨?_, ?_, ?_, ?_⟩
  · intro st2 enc2 f2 s2 l2 w2 h2 hne
    simp [pushStyle, hne]
  · intro st2 enc2 f2 s2 lh2 hne
    simp [build, hne]
  · intro hlen
    have hidx : ∀ i, i < 7 → (enc[i]?).isSome := by
      intro i hi
      rw [List.getElem?_eq_getElem (by omega)]
      rfl
    simp only [pushStyle, if_neg (by omega : ¬ enc.length ≠ 7), hc, Option.some_bind, hn]
    apply isSome_bind_of
    · exact pushStyleResolve_isSome _ _ _ _ _ _ _ (hidx 0 (by norm_num))
        (hidx 1 (by norm_num)) (hidx 2 (by norm_num)) (hidx 3 (by norm_num))
        (hidx 4 (by norm_num)) (hidx 5 (by norm_num)) (hidx 6 (by norm_num))
    · intro r
      simp
  · intro st2 enc2 f2 s2 lh2 p hlen hp
    have hidx : ∀ i, i < 5 → (enc2[i]?).isSome := by
      intro i hi
      rw [List.getElem?_eq_getElem (by omega)]
      rfl
    simp only [build, if_neg (by omega : ¬ enc2.length ≠ 5)]
    apply isSome_bind_of (hidx 0 (by norm_num))
    intro m
    refine isSome_ite _ ?_ (by simp)
    rw [hp]
    simp only [Option.some_bind]
    apply isSome_bind_of
    · exact buildResolve_isSome _ _ _ _ _ _ (hidx 1 (by norm_num))
        (hidx 3 (by norm_num)) (hidx 4 (by norm_num))
    · intro r
      simp

theorem bind_congr_right {α β : Type} (x : Option α) {k k' : α → Option β}
    (h : ∀ a, k a = k' a) : x.bind k = x.bind k' := by
  cases x <;> simp [h]

/-- Claim C4: `build` modifies only the style of the paragraph-level container (the render paragraph — the node the claim's sources call Root: the only node `build` can touch and `pushStyle` never does): with a zero mask the arena is unchanged byte for byte, with a nonzero mask only that node's style is replaced and its kind, text, parent and children are kept, and every other node — every already-created span and text run — keeps exactly the style it resolved earlier (no retroactive cascade). -/
theorem C4_build_touches_only_paragraph (st : BuilderState) (enc : List Int)
    (f : String) (s lh : Rat) (st' : BuilderState) (rs : Nat) (m0 : Int)
    (hb : build st enc f s lh = some (st', rs)) (hm : enc[0]? = some m0) :
    (∀ i, i ≠ st.renderParagraph → st'.nodes[i]? = st.nodes[i]?) ∧
    (toUInt32Pat m0 = 0 → st'.nodes = st.nodes) ∧
    (∀ p, st.nodes[st.renderParagraph]? = some p →
       ∃ p', st'.nodes[st.renderParagraph]? = some p' ∧ p'.kind = p.kind ∧
         p'.text = p.text ∧ p'.parent = p.parent ∧ p'.children = p.children) ∧
    st'.renderView = st.renderView ∧ st'.renderParagraph = st.renderParagraph := by
  by_cases hlen : List.length enc = 5
  case neg =>
    simp [build, hlen] at hb
  case pos =>
    simp only [build, if_neg (by omega : ¬ List.length enc ≠ 5), hm,
      Option.some_bind] at hb
    by_cases hz : toUInt32Pat m0 ≠ 0
    case pos =>
      rw [if_pos hz] at hb
      obtain ⟨para, hpara, hb⟩ := Option.bind_eq_some.mp hb
      obtain ⟨res, hres, hb⟩ := Option.bind_eq_some.mp hb
      cases Option.some.inj hb
      have hrp : st.renderParagraph < st.nodes.length := by
        by_contra hcon
        rw [List.getElem?_eq_none (by omega)] at hpara
        exact Option.noConfusion hpara
      refine ⟨?_, ?_, ?_, rfl, rfl⟩
      · intro i hi
        exact List.getElem?_set_ne (Ne.symm hi)
      · intro hzz
        exact absurd hzz hz
      · intro p hp
        rw [hpara] at hp
        cases Option.some.inj hp
        refine ⟨{ para with style := res.1 }, ?_, rfl, rfl, rfl, rfl⟩
        rw [List.getElem?_set_self hrp]
    case neg =>
      rw [if_neg hz] at hb
      cases hb
      refine ⟨fun i hi => rfl, fun hzz => rfl, fun p hp => ⟨p, hp, rfl, rfl, rfl, rfl⟩, rfl, rfl⟩

theorem pushStyle_inv {st : BuilderState} {enc : List Int} {f : String}
    {s l w h : Rat} {st' : BuilderState} {rs ar : Nat}
    (hp : pushStyle st enc f s l w h = some (st', rs, ar)) :
    ∃ cur nd res, st.current = some cur ∧ st.nodes[cur]? = some nd ∧
      pushStyleResolve nd.style enc f s l w h = some res ∧
      st' = ⟨addChildNode st.nodes cur ⟨NodeKind.renderInline, "", res.1, none, []⟩,
             st.renderView, st.renderParagraph, some st.nodes.length⟩ ∧
      rs = res.2.1 ∧ ar = res.2.2 ∧ List.length enc = 7 := by
  by_cases hlen : List.length enc = 7
  case neg => simp [pushStyle, hlen] at hp
  case pos =>
    simp only [pushStyle, if_neg (by omega : ¬ List.length enc ≠ 7)] at hp
    obtain ⟨cur, hcur, hp⟩ := Option.bind_eq_some.mp hp
    obtain ⟨nd, hnd, hp⟩ := Option.bind_eq_some.mp hp
    obtain ⟨res, hres, hp⟩ := Option.bind_eq_some.mp hp
    have h := Option.some.inj hp
    rw [Prod.mk.injEq] at h
    exact ⟨cur, nd, res, hcur, hnd, hres, h.1.symm,
      (congrArg Prod.fst h.2).symm, (congrArg Prod.snd h.2).symm, hlen⟩

theorem pushStyleResolve_counts (curStyle : RenderStyle) (enc : List Int)
    (f : String) (s l w h : Rat) (res : RenderStyle × Nat × Nat) (m0 : Int)
    (hr : pushStyleResolve curStyle enc f s l w h = some res)
    (hm : enc[0]? = some m0) :
    res.2.1 = (if toUInt32Pat m0 &&& (tsFontWeightMask ||| tsFontStyleMask |||
        tsFontFamilyMask ||| tsFontSizeMask ||| tsLetterSpacingMask |||
        tsWordSpacingMask) ≠ 0 then 1 else 0) ∧
    res.2.2 = (if toUInt32Pat m0 &&& tsTextDecorationMask ≠ 0 then 1 else 0) := by
  simp only [pushStyleResolve, hm, Option.some_bind] at hr
  obtain ⟨s1, h1, hr⟩ := Option.bind_eq_some.mp hr
  obtain ⟨deco, hdeco, hr⟩ := Option.bind_eq_some.mp hr
  obtain ⟨s3, h3, hr⟩ := Option.bind_eq_some.mp hr
  obtain ⟨s4, h4, hr⟩ := Option.bind_eq_some.mp hr
  obtain ⟨font, hfont, hr⟩ := Option.bind_eq_some.mp hr
  cases Option.some.inj hr
  constructor
  · split at hfont
    case isTrue hcond =>
      obtain ⟨fd, hfd, hf⟩ := Option.bind_eq_some.mp hfont
      cases Option.some.inj hf
      rw [if_pos hcond]
    case isFalse hcond =>
      cases Option.some.inj hfont
      rw [if_neg hcond]
  · split at hdeco
    case isTrue hcond =>
      obtain ⟨v, hv, hd⟩ := Option.bind_eq_some.mp hdeco
      cases Option.some.inj hd
      rw [if_pos hcond]
    case isFalse hcond =>
      cases Option.some.inj hdeco
      rw [if_neg hcond]

theorem buildResolve_count (paraStyle : RenderStyle) (enc : List Int)
    (f : String) (s lh : Rat) (mask : Nat) (res : RenderStyle × Nat)
    (hr : buildResolve paraStyle enc f s lh mask = some res) :
    res.2 = (if mask &&& (psFontWeightMask ||| psFontStyleMask |||
        psFontFamilyMask ||| psFontSizeMask) ≠ 0 then 1 else 0) := by
  simp only [buildResolve] at hr
  obtain ⟨s1, h1, hr⟩ := Option.bind_eq_some.mp hr
  obtain ⟨font, hfont, hr⟩ := Option.bind_eq_some.mp hr
  cases Option.some.inj hr
  split at hfont
  case isTrue hcond =>
    obtain ⟨fd, hfd, hf⟩ := Option.bind_eq_some.mp hfont
    cases Option.some.inj hf
    rw [if_pos hcond]
  case isFalse hcond =>
    cases Option.some.inj hfont
    rw [if_neg hcond]

/-- Claim C6: a pushStyle call performs exactly one font-description rebuild and font-selector resync when its mask has at least one of the six bits font-weight, font-style, font-family, font-size, letter-spacing, word-spacing — and zero otherwise; a build call likewise performs exactly one resync when any of its font bits (weight, style, family, size — the ParagraphStyle record has no spacing fields) is set, never one per field. -/
theorem C6_single_font_resync :
    (∀ st enc f s l w h st' rs ar m0, pushStyle st enc f s l w h = some (st', rs, ar) →
       enc[0]? = some m0 →
       rs = if toUInt32Pat m0 &&& (tsFontWeightMask ||| tsFontStyleMask |||
         tsFontFamilyMask ||| tsFontSizeMask ||| tsLetterSpacingMask |||
         tsWordSpacingMask) ≠ 0 then 1 else 0) ∧
    (∀ st enc f s lh st' rs m0, build st enc f s lh = some (st', rs) →
       enc[0]? = some m0 →
       rs = if toUInt32Pat m0 &&& (psFontWeightMask ||| psFontStyleMask |||
         psFontFamilyMask ||| psFontSizeMask) ≠ 0 then 1 else 0) := by
  constructor
  · intro st enc f s l w h st' rs ar m0 hp hm
    obtain ⟨cur, nd, res, hcur, hnd, hres, hst, hrs, har, hlen⟩ := pushStyle_inv hp
    rw [hrs]
    exact (pushStyleResolve_counts _ _ _ _ _ _ _ _ _ hres hm).1
  · intro st enc f s lh st' rs m0 hb hm
    by_cases hlen : List.length enc = 5
    case neg => simp [build, hlen] at hb
    case pos =>
      simp only [build, if_neg (by omega : ¬ List.length enc ≠ 5), hm,
        Option.some_bind] at hb
      by_cases hz : toUInt32Pat m0 ≠ 0
      case pos =>
        rw [if_pos hz] at hb
        obtain ⟨para, hpara, hb⟩ := Option.bind_eq_some.mp hb
        obtain ⟨res, hres, hb⟩ := Option.bind_eq_some.mp hb
        cases Option.some.inj hb
        exact buildResolve_count _ _ _ _ _ _ _ hres
      case neg =>
        rw [if_neg hz] at hb
        cases Option.some.inj hb
        have hz0 : toUInt32Pat m0 = 0 := by omega
        rw [hz0]
        simp

theorem applyTsFontFields_params (mask : Nat) (enc : List Int)
    (f f' : String) (s s' l l' w w' : Rat) (fd : FontDescription)
    (hf : mask &&& tsFontFamilyMask ≠ 0 → f = f')
    (hs : mask &&& tsFontSizeMask ≠ 0 → s = s')
    (hl : mask &&& tsLetterSpacingMask ≠ 0 → l = l')
    (hw : mask &&& tsWordSpacingMask ≠ 0 → w = w') :
    applyTsFontFields mask enc f s l w fd = applyTsFontFields mask enc f' s' l' w' fd := by
  unfold applyTsFontFields
  apply bind_congr_right
  intro fd1
  apply bind_congr_right
  intro fd2
  have efam : ∀ g : FontDescription,
      (if mask &&& tsFontFamilyMask ≠ 0 then { g with family := f } else g) =
      (if mask &&& tsFontFamilyMask ≠ 0 then { g with family := f' } else g) := by
    intro g
    split
    · rw [hf (by assumption)]
    · rfl
  have esize : ∀ g : FontDescription,
      (if mask &&& tsFontSizeMask ≠ 0 then
        { g with specifiedSize := s, isAbsoluteSize := true,
                 computedSize := getComputedSizeFromSpecifiedSize s } else g) =
      (if mask &&& tsFontSizeMask ≠ 0 then
        { g with specifiedSize := s', isAbsoluteSize := true,
                 computedSize := getComputedSizeFromSpecifiedSize s' } else g) := by
    intro g
    split
    · rw [hs (by assumption)]
    · rfl
  have eletter : ∀ g : FontDescription,
      (if mask &&& tsLetterSpacingMask ≠ 0 then { g with letterSpacing := l } else g) =
      (if mask &&& tsLetterSpacingMask ≠ 0 then { g with letterSpacing := l' } else g) := by
    intro g
    split
    · rw [hl (by assumption)]
    · rfl
  have eword : ∀ g : FontDescription,
      (if mask &&& tsWordSpacingMask ≠ 0 then { g with wordSpacing := w } else g) =
      (if mask &&& tsWordSpacingMask ≠ 0 then { g with wordSpacing := w' } else g) := by
    intro g
    split
    · rw [hw (by assumption)]
    · rfl
  simp only [efam, esize, eletter, eword]

theorem pushStyleResolve_params (curStyle : RenderStyle) (enc : List Int)
    (f f' : String) (s s' l l' w w' h h' : Rat) (m0 : Int)
    (hm : enc[0]? = some m0)
    (hf : toUInt32Pat m0 &&& tsFontFamilyMask ≠ 0 → f = f')
    (hs : toUInt32Pat m0 &&& tsFontSizeMask ≠ 0 → s = s')
    (hl : toUInt32Pat m0 &&& tsLetterSpacingMask ≠ 0 → l = l')
    (hw : toUInt32Pat m0 &&& tsWordSpacingMask ≠ 0 → w = w')
    (hh : toUInt32Pat m0 &&& tsHeightMask ≠ 0 → h = h') :
    pushStyleResolve curStyle enc f s l w h = pushStyleResolve curStyle enc f' s' l' w' h' := by
  unfold pushStyleResolve
  rw [hm]
  simp only [Option.some_bind]
  apply bind_congr_right
  intro s1
  apply bind_congr_right
  intro deco
  apply bind_congr_right
  intro s3
  apply bind_congr_right
  intro s4
  have efont : (if toUInt32Pat m0 &&& (tsFontWeightMask ||| tsFontStyleMask |||
        tsFontFamilyMask ||| tsFontSizeMask ||| tsLetterSpacingMask |||
        tsWordSpacingMask) ≠ 0 then
      (applyTsFontFields (toUInt32Pat m0) enc f s l w s4.fontDescription).bind fun fd =>
        some ({ s4 with fontDescription := fd }, 1)
    else some (s4, 0)) =
      (if toUInt32Pat m0 &&& (tsFontWeightMask ||| tsFontStyleMask |||
        tsFontFamilyMask ||| tsFontSizeMask ||| tsLetterSpacingMask |||
        tsWordSpacingMask) ≠ 0 then
      (applyTsFontFields (toUInt32Pat m0) enc f' s' l' w' s4.fontDescription).bind fun fd =>
        some ({ s4 with fontDescription := fd }, 1)
    else some (s4, 0)) := by
    split
    · rw [applyTsFontFields_params _ _ _ _ _ _ _ _ _ _ _ hf hs hl hw]
    · rfl
  rw [efont]
  apply bind_congr_right
  intro font
  have eh : (if toUInt32Pat m0 &&& tsHeightMask ≠ 0 then
      { font.1 with lineHeight := Length.mk (h * 100) true } else font.1) =
      (if toUInt32Pat m0 &&& tsHeightMask ≠ 0 then
      { font.1 with lineHeight := Length.mk (h' * 100) true } else font.1) := by
    split
    · rw [hh (by assumption)]
    · rfl
  simp only [eh]

theorem applyPsFontFields_params (mask : Nat) (enc : List Int)
    (f f' : String) (s s' : Rat) (fd : FontDescription)
    (hf : mask &&& psFontFamilyMask ≠ 0 → f = f')
    (hs : mask &&& psFontSizeMask ≠ 0 → s = s') :
    applyPsFontFields mask enc f s fd = applyPsFontFields mask enc f' s' fd := by
  unfold applyPsFontFields
  apply bind_congr_right
  intro fd1
  apply bind_congr_right
  intro fd2
  have efam : ∀ g : FontDescription,
      (if mask &&& psFontFamilyMask ≠ 0 then { g with family := f } else g) =
      (if mask &&& psFontFamilyMask ≠ 0 then { g with family := f' } else g) := by
    intro g
    split
    · rw [hf (by assumption)]
    · rfl
  have esize : ∀ g : FontDescription,
      (if mask &&& psFontSizeMask ≠ 0 then
        { g with specifiedSize := s, isAbsoluteSize := true,
                 computedSize := getComputedSizeFromSpecifiedSize s } else g) =
      (if mask &&& psFontSizeMask ≠ 0 then
        { g with specifiedSize := s', isAbsoluteSize := true,
                 computedSize := getComputedSizeFromSpecifiedSize s' } else g) := by
    intro g
    split
    · rw [hs (by assumption)]
    · rfl
  simp only [efam, esize]

theorem buildResolve_params (paraStyle : RenderStyle) (enc : List Int)
    (f f' : String) (s s' lh lh' : Rat) (mask : Nat)
    (hf : mask &&& psFontFamilyMask ≠ 0 → f = f')
    (hs : mask &&& psFontSizeMask ≠ 0 → s = s')
    (hlh : mask &&& psLineHeightMask ≠ 0 → lh = lh') :
    buildResolve paraStyle enc f s lh mask = buildResolve paraStyle enc f' s' lh' mask := by
  unfold buildResolve
  apply bind_congr_right
  intro s1
  have efont : (if mask &&& (psFontWeightMask ||| psFontStyleMask |||
        psFontFamilyMask ||| psFontSizeMask) ≠ 0 then
      (applyPsFontFields mask enc f s s1.fontDescription).bind fun fd =>
        some ({ s1 with fontDescription := fd }, 1)
    else some (s1, 0)) =
      (if mask &&& (psFontWeightMask ||| psFontStyleMask |||
        psFontFamilyMask ||| psFontSizeMask) ≠ 0 then
      (applyPsFontFields mask enc f' s' s1.fontDescription).bind fun fd =>
        some ({ s1 with fontDescription := fd }, 1)
    else some (s1, 0)) := by
    split
    · rw [applyPsFontFields_params _ _ _ _ _ _ _ hf hs]
    · rfl
  rw [efont]
  apply bind_congr_right
  intro font
  have eh : (if mask &&& psLineHeightMask ≠ 0 then
      { font.1 with lineHeight := Length.mk (lh * 100) true } else font.1) =
      (if mask &&& psLineHeightMask ≠ 0 then
      { font.1 with lineHeight := Length.mk (lh' * 100) true } else font.1) := by
    split
    · rw [hlh (by assumption)]
    · rfl
  simp only [eh]

/-- Claim C8: on equal builder states with identical diff records, out-of-band string/float parameters whose mask bit is unset are ignored — two pushStyle (or build) calls differing only in such parameters produce identical results. -/
theorem C8_out_of_band_gating :
    (∀ st enc f f' s s' l l' w w' h h' m0, enc[0]? = some m0 →
       (toUInt32Pat m0 &&& tsFontFamilyMask ≠ 0 → f = f') →
       (toUInt32Pat m0 &&& tsFontSizeMask ≠ 0 → s = s') →
       (toUInt32Pat m0 &&& tsLetterSpacingMask ≠ 0 → l = l') →
       (toUInt32Pat m0 &&& tsWordSpacingMask ≠ 0 → w = w') →
       (toUInt32Pat m0 &&& tsHeightMask ≠ 0 → h = h') →
       pushStyle st enc f s l w h = pushStyle st enc f' s' l' w' h') ∧
    (∀ st enc f f' s s' lh lh' m0, enc[0]? = some m0 →
       (toUInt32Pat m0 &&& psFontFamilyMask ≠ 0 → f = f') →
       (toUInt32Pat m0 &&& psFontSizeMask ≠ 0 → s = s') →
       (toUInt32Pat m0 &&& psLineHeightMask ≠ 0 → lh = lh') →
       build st enc f s lh = build st enc f' s' lh') := by
  constructor
  · intro st enc f f' s s' l l' w w' h h' m0 hm hf hs hl hw hh
    unfold pushStyle
    split
    · rfl
    apply bind_congr_right
    intro cur
    apply bind_congr_right
    intro nd
    rw [pushStyleResolve_params _ _ _ _ _ _ _ _ _ _ _ _ _ hm hf hs hl hw hh]
  · intro st enc f f' s s' lh lh' m0 hm hf hs hlh
    unfold build
    split
    · rfl
    rw [hm]
    simp only [Option.some_bind]
    split
    · apply bind_congr_right
      intro para
      rw [buildResolve_params _ _ _ _ _ _ _ _ _ hf hs hlh]
    · rfl

theorem pushStyleResolve_no_redecoration (curStyle : RenderStyle) (enc : List Int)
    (f : String) (s l w h : Rat) (res : RenderStyle × Nat × Nat) (m0 : Int)
    (hr : pushStyleResolve curStyle enc f s l w h = some res)
    (hm : enc[0]? = some m0)
    (hdec : toUInt32Pat m0 &&& tsTextDecorationMask = 0) :
    res.2.2 = 0 ∧
    res.1.appliedTextDecorations = curStyle.appliedTextDecorations ∧
    res.1.textDecoration = curStyle.textDecoration ∧
    (toUInt32Pat m0 &&& tsTextDecorationStyleMask ≠ 0 →
       ∃ v, enc[tsTextDecorationStyleIndex]? = some v ∧ res.1.textDecorationStyle = v) ∧
    (toUInt32Pat m0 &&& tsTextDecorationColorMask ≠ 0 →
       ∃ v, enc[tsTextDecorationColorIndex]? = some v ∧
         res.1.textDecorationColor = StyleColor.mk (getColorFromARGB (toUInt32Pat v))) := by
  simp only [pushStyleResolve, hm, Option.some_bind] at hr
  obtain ⟨s1, h1, hr⟩ := Option.bind_eq_some.mp hr
  obtain ⟨deco, hdeco, hr⟩ := Option.bind_eq_some.mp hr
  obtain ⟨s3, h3, hr⟩ := Option.bind_eq_some.mp hr
  obtain ⟨s4, h4, hr⟩ := Option.bind_eq_some.mp hr
  obtain ⟨font, hfont, hr⟩ := Option.bind_eq_some.mp hr
  have hif : ¬ (toUInt32Pat m0 &&& tsTextDecorationMask ≠ 0) := by simp [hdec]
  rw [if_neg hif] at hdeco
  cases Option.some.inj hdeco
  cases Option.some.inj hr
  have hs1 : s1.appliedTextDecorations = curStyle.appliedTextDecorations ∧
      s1.textDecoration = curStyle.textDecoration ∧
      s1.textDecorationStyle = curStyle.textDecorationStyle ∧
      s1.textDecorationColor = curStyle.textDecorationColor := by
    split at h1
    · obtain ⟨v, hv, hveq⟩ := Option.bind_eq_some.mp h1
      cases Option.some.inj hveq
      exact ⟨rfl, rfl, rfl, rfl⟩
    · cases Option.some.inj h1
      exact ⟨rfl, rfl, rfl, rfl⟩
  have hs3 : s3.appliedTextDecorations = s1.appliedTextDecorations ∧
      s3.textDecoration = s1.textDecoration ∧
      s3.textDecorationStyle = s1.textDecorationStyle ∧
      (toUInt32Pat m0 &&& tsTextDecorationColorMask ≠ 0 →
        ∃ v, enc[tsTextDecorationColorIndex]? = some v ∧
          s3.textDecorationColor = StyleColor.mk (getColorFromARGB (toUInt32Pat v))) := by
    split at h3
    · obtain ⟨v, hv, hveq⟩ := Option.bind_eq_some.mp h3
      cases Option.some.inj hveq
      exact ⟨rfl, rfl, rfl, fun _ => ⟨v, hv, rfl⟩⟩
    · cases Option.some.inj h3
      next hcond =>
      exact ⟨rfl, rfl, rfl, fun hc => absurd hc hcond⟩
  have hs4 : s4.appliedTextDecorations = s3.appliedTextDecorations ∧
      s4.textDecoration = s3.textDecoration ∧
      s4.textDecorationColor = s3.textDecorationColor ∧
      (toUInt32Pat m0 &&& tsTextDecorationStyleMask ≠ 0 →
        ∃ v, enc[tsTextDecorationStyleIndex]? = some v ∧ s4.textDecorationStyle = v) := by
    split at h4
    · obtain ⟨v, hv, hveq⟩ := Option.bind_eq_some.mp h4
      cases Option.some.inj hveq
      exact ⟨rfl, rfl, rfl, fun _ => ⟨v, hv, rfl⟩⟩
    · cases Option.some.inj h4
      next hcond =>
      exact ⟨rfl, rfl, rfl, fun hc => absurd hc hcond⟩
  have hf5 : font.1.appliedTextDecorations = s4.appliedTextDecorations ∧
      font.1.textDecoration = s4.textDecoration ∧
      font.1.textDecorationStyle = s4.textDecorationStyle ∧
      font.1.textDecorationColor = s4.textDecorationColor := by
    split at hfont
    · obtain ⟨fd, hfd, hveq⟩ := Option.bind_eq_some.mp hfont
      cases Option.some.inj hveq
      exact ⟨rfl, rfl, rfl, rfl⟩
    · cases Option.some.inj hfont
      exact ⟨rfl, rfl, rfl, rfl⟩
  have hlast : ∀ q : RenderStyle → Int,
      (∀ g : RenderStyle, q { g with lineHeight := Length.mk (h * 100) true } = q g) →
      q (if toUInt32Pat m0 &&& tsHeightMask ≠ 0 then
          { font.1 with lineHeight := Length.mk (h * 100) true } else font.1) = q font.1 := by
    intro q hq
    split
    · exact hq font.1
    · rfl
  refine ⟨rfl, ?_, ?_, ?_, ?_⟩
  · rw [hlast RenderStyle.appliedTextDecorations (fun g => rfl), hf5.1, hs4.1, hs3.1, hs1.1]
  · rw [hlast RenderStyle.textDecoration (fun g => rfl), hf5.2.1, hs4.2.1, hs3.2.1, hs1.2.1]
  · intro hc
    obtain ⟨v, hv, hveq⟩ := hs4.2.2.2 hc
    refine ⟨v, hv, ?_⟩
    have : (if toUInt32Pat m0 &&& tsHeightMask ≠ 0 then
        { font.1 with lineHeight := Length.mk (h * 100) true }
      else font.1).textDecorationStyle = font.1.textDecorationStyle := by
      split <;> rfl
    rw [this, hf5.2.2.1, hveq]
  · intro hc
    obtain ⟨v, hv, hveq⟩ := hs3.2.2.2 hc
    refine ⟨v, hv, ?_⟩
    have : (if toUInt32Pat m0 &&& tsHeightMask ≠ 0 then
        { font.1 with lineHeight := Length.mk (h * 100) true }
      else font.1).textDecorationColor = font.1.textDecorationColor := by
      split <;> rfl
    rw [this, hf5.2.2.2, hs4.2.2.1, hveq]

/-- Claim C9: when the mask sets the decoration-style or decoration-color bit but not the text-decoration bit, `applyTextDecorations` never runs (count 0) and the new span keeps the inherited applied-decoration set and decoration enum — only the decoration-style and decoration-color fields take the encoded values. -/
theorem C9_no_redecoration (st : BuilderState) (enc : List Int) (f : String)
    (s l w h : Rat) (st' : BuilderState) (rs ar : Nat) (m0 : Int)
    (hp : pushStyle st enc f s l w h = some (st', rs, ar))
    (hm : enc[0]? = some m0)
    (hdec : toUInt32Pat m0 &&& tsTextDecorationMask = 0) :
    ar = 0 ∧
    (∃ cur nd span, st.current = some cur ∧ st.nodes[cur]? = some nd ∧
      st'.nodes[st.nodes.length]? = some span ∧ span.kind = NodeKind.renderInline ∧
      span.style.appliedTextDecorations = nd.style.appliedTextDecorations ∧
      span.style.textDecoration = nd.style.textDecoration ∧
      (toUInt32Pat m0 &&& tsTextDecorationStyleMask ≠ 0 →
        ∃ v, enc[tsTextDecorationStyleIndex]? = some v ∧
          span.style.textDecorationStyle = v) ∧
      (toUInt32Pat m0 &&& tsTextDecorationColorMask ≠ 0 →
        ∃ v, enc[tsTextDecorationColorIndex]? = some v ∧
          span.style.textDecorationColor =
            StyleColor.mk (getColorFromARGB (toUInt32Pat v)))) := by
  obtain ⟨cur, nd, res, hcur, hnd, hres, hst, hrs, har, hlen⟩ := pushStyle_inv hp
  obtain ⟨h0, happ, hdeco2, hstyle, hcolor⟩ :=
    pushStyleResolve_no_redecoration _ _ _ _ _ _ _ _ _ hres hm hdec
  have hcl : cur < st.nodes.length := by
    by_contra hcon
    rw [List.getElem?_eq_none (by omega)] at hnd
    exact Option.noConfusion hnd
  refine ⟨har.trans h0, cur, nd,
    ⟨NodeKind.renderInline, "", res.1, some cur, []⟩, hcur, hnd, ?_, rfl,
    happ, hdeco2, hstyle, hcolor⟩
  rw [hst]
  exact addChildNode_get_new _ _ _ hcl

theorem construct_chain : isChainState construct 0 ∧ construct.current = some 1 := by
  constructor
  · refine ⟨rfl, rfl, rfl, ?_⟩
    decide
  · rfl

theorem pushCall_chain (n : Nat) (st : BuilderState) (h : isChainState st n)
    (hc : st.current = some (n + 1)) (c : PushCall) (hlen7 : c.encoded.length = 7) :
    isChainState (pushCallStep st c) (n + 1) ∧
    (pushCallStep st c).current = some (n + 2) := by
  obtain ⟨hv, hp, hlen, hall⟩ := h
  obtain ⟨hpar, hch⟩ := hall (n + 1) (by omega)
  obtain ⟨nd, hnd, hndpar⟩ := Option.map_eq_some'.mp hpar
  rw [hnd] at hch
  have hndch : nd.children = [] := by
    have := Option.some.inj hch
    simpa using this
  have hidx : ∀ i, i < 7 → ((c.encoded)[i]?).isSome := by
    intro i hi
    rw [List.getElem?_eq_getElem (by omega)]
    rfl
  have hsome : (pushStyle st c.encoded c.fontFamily c.fontSize c.letterSpacing
      c.wordSpacing c.height).isSome := by
    simp only [pushStyle, if_neg (by omega : ¬ c.encoded.length ≠ 7), hc,
      Option.some_bind, hnd]
    apply isSome_bind_of
    · exact pushStyleResolve_isSome _ _ _ _ _ _ _ (hidx 0 (by norm_num))
        (hidx 1 (by norm_num)) (hidx 2 (by norm_num)) (hidx 3 (by norm_num))
        (hidx 4 (by norm_num)) (hidx 5 (by norm_num)) (hidx 6 (by norm_num))
    · intro r
      simp
  obtain ⟨r, hr⟩ := Option.isSome_iff_exists.mp hsome
  obtain ⟨cur, nd2, res, hcur, hnd2, hres, hst, _, _, _⟩ := pushStyle_inv hr
  rw [hc] at hcur
  cases Option.some.inj hcur
  rw [hnd] at hnd2
  cases Option.some.inj hnd2
  have hbody : pushCallStep st c =
      ⟨addChildNode st.nodes (n + 1) ⟨NodeKind.renderInline, "", res.1, none, []⟩,
       st.renderView, st.renderParagraph, some st.nodes.length⟩ := by
    unfold pushCallStep
    rw [hr]
    exact hst
  rw [hbody]
  refine ⟨⟨hv, hp, ?_, ?_⟩, ?_⟩
  · simp only [addChildNode_length, hlen]
  · intro i hi
    by_cases hip : i = n + 1
    · subst hip
      have hupd := addChildNode_get_parent st.nodes (n + 1)
        ⟨NodeKind.renderInline, "", res.1, none, []⟩ nd hnd
      simp only [hupd, Option.map_some', Option.some.injEq, hndch]
      refine ⟨hndpar, ?_⟩
      rw [hlen]
      simp [(by omega : ¬ (n + 1 = n + 1 + 1))]
    · by_cases hnew : i = n + 2
      · subst hnew
        have hupd := addChildNode_get_new st.nodes (n + 1)
          ⟨NodeKind.renderInline, "", res.1, none, []⟩ (by omega)
        rw [hlen] at hupd
        simp only [hupd, Option.map_some', Option.some.injEq]
        constructor
        · simp [(by omega : ¬ (n + 2 = 0)), (by omega : n + 2 - 1 = n + 1)]
        · simp
      · have hilt : i < n + 2 := by omega
        have hold := addChildNode_get_old st.nodes (n + 1)
          ⟨NodeKind.renderInline, "", res.1, none, []⟩ i (by omega) hip
        obtain ⟨hpar2, hch2⟩ := hall i hilt
        rw [hold, hpar2, hch2]
        refine ⟨rfl, ?_⟩
        rw [if_neg hip, if_neg (by omega : ¬ (i = n + 1 + 1))]
  · simp only [hlen]

theorem pushSeq_chain (calls : List PushCall) (n : Nat) (st : BuilderState)
    (h : isChainState st n) (hc : st.current = some (n + 1))
    (hwf : ∀ c ∈ calls, c.encoded.length = 7) :
    isChainState (pushSeq calls st) (n + calls.length) ∧
    (pushSeq calls st).current = some (n + calls.length + 1) := by
  induction calls generalizing n st with
  | nil => simpa using ⟨h, hc⟩
  | cons c rest ih =>
    have hc7 : c.encoded.length = 7 := hwf c (by simp)
    obtain ⟨h1, hc1⟩ := pushCall_chain n st h hc c hc7
    have hrest := ih (n + 1) (pushCallStep st c) h1 hc1
      (fun d hd => hwf d (List.mem_cons_of_mem c hd))
    have hstep : pushSeq (c :: rest) st = pushSeq rest (pushCallStep st c) := rfl
    rw [hstep, List.length_cons, (by omega : n + (rest.length + 1) = n + 1 + rest.length)]
    exact hrest

theorem popN_formula (n : Nat) (st : BuilderState) (h : isChainState st n)
    (c : Nat) (hc : st.current = some c) (hcc : c < n + 2) (k : Nat) :
    (popN k st).nodes = st.nodes ∧
    (popN k st).renderView = st.renderView ∧
    (popN k st).renderParagraph = st.renderParagraph ∧
    (popN k st).current = (if k ≤ c then some (c - k) else none) := by
  obtain ⟨hv, hp, hlen, hall⟩ := h
  induction k with
  | zero =>
    refine ⟨rfl, rfl, rfl, ?_⟩
    simp [popN, hc]
  | succ k ih =>
    obtain ⟨ihn, ihv, ihp, ihc⟩ := ih
    have hstep : popN (k + 1) st = pop (popN k st) := rfl
    rw [hstep]
    by_cases hk : k ≤ c
    · rw [if_pos hk] at ihc
      obtain ⟨hpar, _⟩ := hall (c - k) (by omega)
      obtain ⟨nd, hnd, hndpar⟩ := Option.map_eq_some'.mp hpar
      rw [← ihn] at hnd
      have hpop : pop (popN k st) =
          { popN k st with current := ((popN k st).nodes[c - k]?).bind Node.parent } := by
        simp [pop, ihc]
      rw [hpop]
      refine ⟨ihn, ihv, ihp, ?_⟩
      simp only [hnd, Option.some_bind, hndpar]
      by_cases hzero : c - k = 0
      · rw [if_pos hzero]
        rw [if_neg (by omega)]
      · rw [if_neg hzero]
        rw [if_pos (by omega)]
        have : c - k - 1 = c - (k + 1) := by omega
        rw [this]
    · rw [if_neg hk] at ihc
      have hpop : pop (popN k st) = popN k st := by
        simp [pop, ihc]
      rw [hpop]
      exact ⟨ihn, ihv, ihp, by rw [ihc, if_neg (by omega)]⟩

theorem chain_depth (st : BuilderState) (n : Nat) (h : isChainState st n) :
    ∀ i fuel, i < n + 2 → i ≤ fuel → depthToRoot st.nodes fuel i = i := by
  obtain ⟨hv, hp, hlen, hall⟩ := h
  intro i
  induction i with
  | zero =>
    intro fuel _ _
    cases fuel with
    | zero => rfl
    | succ fu =>
      obtain ⟨hpar, _⟩ := hall 0 (by omega)
      obtain ⟨nd, hnd, hndpar⟩ := Option.map_eq_some'.mp hpar
      simp only [depthToRoot, hnd]
      rw [hndpar, if_pos rfl]
  | succ i ih =>
    intro fuel hi hfuel
    cases fuel with
    | zero => omega
    | succ fu =>
      obtain ⟨hpar, _⟩ := hall (i + 1) (by omega)
      obtain ⟨nd, hnd, hndpar⟩ := Option.map_eq_some'.mp hpar
      simp only [depthToRoot, hnd]
      rw [hndpar, if_neg (by omega : ¬ (i + 1 = 0))]
      simp only [Nat.add_sub_cancel]
      rw [ih fu (by omega) (by omega)]

theorem popN_add (a b : Nat) (st : BuilderState) : popN a (popN b st) = popN (a + b) st := by
  induction a with
  | zero => simp [popN]
  | succ a ih =>
    have h1 : popN (a + 1) (popN b st) = pop (popN a (popN b st)) := rfl
    have h2 : popN (a + b + 1) st = pop (popN (a + b) st) := rfl
    rw [h1, ih, (by omega : a + 1 + b = a + b + 1), h2]

/-- Claim C5, counterexample at n = 1, m = 1: after one pushStyle and one pop, n − m = 0 further pops leave the cursor at the implicit span (non-null, not null as claimed), and the implicit span still has its span child, so the tree depth directly under it is 1, not n − m = 0. -/
theorem C5_counterexample :
    (popN (1 - 1) (popN 1 (pushN 1 construct))).current ≠ none ∧
    ((popN 1 (pushN 1 construct)).nodes[1]?).map Node.children = some [2] := by
  exact ⟨by decide, by decide⟩

/-- Claim C5, amended: for every sequence of n pushStyle calls — arbitrary 7-slot diff records and arbitrary out-of-band parameters — followed by m ≤ n pops, the cursor sits at depth n − m below the implicit top-level span (non-null), the tree itself keeps depth n under the implicit span (pop deletes nothing — the deepest span stays n + 1 parent steps from the Root), and exactly n − m + 2 additional pops leave the cursor null without throwing: n − m to the implicit span, one to the Root, one to null. -/
theorem C5_push_pop_depth (calls : List PushCall) (n m : Nat)
    (hn : calls.length = n) (hwf : ∀ c ∈ calls, c.encoded.length = 7) (hmn : m ≤ n) :
    (popN m (pushSeq calls construct)).current = some (n + 1 - m) ∧
    (popN m (pushSeq calls construct)).nodes.length = n + 2 ∧
    depthToRoot (popN m (pushSeq calls construct)).nodes (n + 2) (n + 1 - m) = n + 1 - m ∧
    depthToRoot (popN m (pushSeq calls construct)).nodes (n + 2) (n + 1) = n + 1 ∧
    (popN (n - m) (popN m (pushSeq calls construct))).current = some 1 ∧
    (popN (n - m + 1) (popN m (pushSeq calls construct))).current = some 0 ∧
    (popN (n - m + 2) (popN m (pushSeq calls construct))).current = none := by
  subst hn
  obtain ⟨hchain, hcur⟩ :=
    pushSeq_chain calls 0 construct construct_chain.1 construct_chain.2 hwf
  rw [Nat.zero_add] at hchain hcur
  have hf := popN_formula calls.length _ hchain (calls.length + 1) hcur (by omega)
  obtain ⟨hfn, hfv, hfp, hfc⟩ := hf m
  refine ⟨?_, ?_, ?_, ?_, ?_, ?_, ?_⟩
  · rw [hfc, if_pos (by omega)]
  · rw [hfn, hchain.2.2.1]
  · rw [hfn]
    exact chain_depth _ calls.length hchain (calls.length + 1 - m) (calls.length + 2)
      (by omega) (by omega)
  · rw [hfn]
    exact chain_depth _ calls.length hchain (calls.length + 1) (calls.length + 2)
      (by omega) (by omega)
  · rw [popN_add, (by omega : calls.length - m + m = calls.length),
      (hf calls.length).2.2.2, if_pos (by omega),
      (by omega : calls.length + 1 - calls.length = 1)]
  · rw [popN_add, (by omega : calls.length - m + 1 + m = calls.length + 1),
      (hf (calls.length + 1)).2.2.2, if_pos (by omega),
      (by omega : calls.length + 1 - (calls.length + 1) = 0)]
  · rw [popN_add, (by omega : calls.length - m + 2 + m = calls.length + 2),
      (hf (calls.length + 2)).2.2.2, if_neg (by omega)]

theorem byte_extract (x k : Nat) : (x &&& (255 <<< k)) >>> k = x / 2 ^ k % 2 ^ 8 := by
  apply Nat.eq_of_testBit_eq
  intro j
  rw [← Nat.shiftRight_eq_div_pow]
  simp only [Nat.testBit_shiftRight, Nat.testBit_and, Nat.testBit_shiftLeft,
    Nat.testBit_mod_two_pow]
  have h255 : ∀ i, Nat.testBit 255 i = decide (i < 8) := by
    intro i
    have he : (255 : Nat) = 2 ^ 8 - 1 := by norm_num
    rw [he, Nat.testBit_two_pow_sub_one]
  by_cases hj : j < 8
  · simp [h255, hj, Nat.add_sub_cancel_left]
  · simp [h255, hj, Nat.add_sub_cancel_left]

/-- Claim C7: the color decoder extracts alpha from bits [31:24], red from [23:16], green from [15:8] and blue from [7:0] of the 32-bit pattern, and the decode is invertible — packing the four decoded components back into a 32-bit ARGB integer gives back the original integer, so decoding again yields the original components. -/
theorem C7_color_roundtrip (argb : Nat) (h : argb < 2 ^ 32) :
    (getColorFromARGB argb).alpha = argb / 2 ^ 24 % 2 ^ 8 ∧
    (getColorFromARGB argb).red = argb / 2 ^ 16 % 2 ^ 8 ∧
    (getColorFromARGB argb).green = argb / 2 ^ 8 % 2 ^ 8 ∧
    (getColorFromARGB argb).blue = argb % 2 ^ 8 ∧
    packARGB (getColorFromARGB argb) = argb ∧
    getColorFromARGB (packARGB (getColorFromARGB argb)) = getColorFromARGB argb := by
  have ha : (getColorFromARGB argb).alpha = argb / 2 ^ 24 % 2 ^ 8 := by
    have hx := byte_extract argb 24
    simpa [getColorFromARGB] using hx
  have hr : (getColorFromARGB argb).red = argb / 2 ^ 16 % 2 ^ 8 := by
    have hx := byte_extract argb 16
    simpa [getColorFromARGB] using hx
  have hg : (getColorFromARGB argb).green = argb / 2 ^ 8 % 2 ^ 8 := by
    have hx := byte_extract argb 8
    simpa [getColorFromARGB] using hx
  have hb : (getColorFromARGB argb).blue = argb % 2 ^ 8 := by
    have hx := byte_extract argb 0
    simpa [getColorFromARGB] using hx
  have hpack : packARGB (getColorFromARGB argb) = argb := by
    rw [packARGB, ha, hr, hg, hb]
    omega
  exact ⟨ha, hr, hg, hb, hpack, by rw [hpack]⟩

/-- Claim C1, witness: the amended pop theorem applied to the freshly constructed builder. -/
theorem C1_witness :
    (pop construct).nodes = construct.nodes ∧ (pop construct).current = some 0 := by
  have hnd : construct.nodes[1]? = some ((construct.nodes[1]?).get (by decide)) :=
    (Option.some_get _).symm
  have h := C1_pop_is_pure_cursor_move construct 1 _ rfl hnd
  refine ⟨h.1, ?_⟩
  rw [h.2.2.2.1]
  decide

/-- Claim C2, witness: the null-cursor crash theorem applied at a concrete over-popped state. -/
theorem C2_witness : pushStyle (popN 2 construct) [1, 2, 3, 4, 5, 6, 7] "x" 1 2 3 4 = none :=
  (C2_pushStyle_null_cursor (popN 2 construct) [1, 2, 3, 4, 5, 6, 7] "x" 1 2 3 4
    (by decide)).2.2

/-- Claim C3, witness: the record-length theorem applied at a 3-slot record, which is rejected. -/
theorem C3_witness : pushStyle construct [0, 0, 0] "" 0 0 0 0 = none := by
  have hnd : construct.nodes[1]? = some ((construct.nodes[1]?).get (by decide)) :=
    (Option.some_get _).symm
  have h := C3_record_length construct [0, 0, 0, 0, 0, 0, 0] "" 0 0 0 0 1 _ rfl hnd
  exact h.1 construct [0, 0, 0] "" 0 0 0 0 (by decide)

/-- Claim C4, witness: the build frame theorem applied to a concrete build with the text-align bit set; the render view node is untouched. -/
theorem C4_witness :
    ((build construct [2, 3, 0, 0, 0] "" 0 0).map fun pr => pr.1.nodes[0]?) =
      some (construct.nodes[0]?) := by
  have hsome : (build construct [2, 3, 0, 0, 0] "" 0 0).isSome := by decide
  have hb : build construct [2, 3, 0, 0, 0] "" 0 0 =
      some ((build construct [2, 3, 0, 0, 0] "" 0 0).get hsome) :=
    (Option.some_get _).symm
  have h := C4_build_touches_only_paragraph construct [2, 3, 0, 0, 0] "" 0 0
    ((build construct [2, 3, 0, 0, 0] "" 0 0).get hsome).1
    ((build construct [2, 3, 0, 0, 0] "" 0 0).get hsome).2 2 hb rfl
  rw [hb, Option.map_some']
  exact congrArg some (h.1 0 (by decide))

/-- Claim C5, witness: the push/pop depth theorem at a concrete sequence of two pushStyle calls with different records and parameters (a color push and a font-size push), followed by one pop. -/
theorem C5_witness :
    (popN 1 (pushSeq [⟨[2, 255, 0, 0, 0, 0, 0], "x", 3, 0, 0, 0⟩,
      ⟨[256, 0, 0, 0, 0, 0, 0], "serif", 12, 1, 1, 2⟩] construct)).current = some 2 :=
  (C5_push_pop_depth [⟨[2, 255, 0, 0, 0, 0, 0], "x", 3, 0, 0, 0⟩,
    ⟨[256, 0, 0, 0, 0, 0, 0], "serif", 12, 1, 1, 2⟩] 2 1 rfl (by decide) (by decide)).1

/-- Claim C6, witness: a pushStyle call with both font-weight and font-style bits set performs exactly one resync. -/
theorem C6_witness :
    ((pushStyle construct [96, 0, 0, 0, 0, 400, 1] "" 0 0 0 0).map fun r => r.2.1) =
      some 1 := by
  have hsome : (pushStyle construct [96, 0, 0, 0, 0, 400, 1] "" 0 0 0 0).isSome := by decide
  have hb : pushStyle construct [96, 0, 0, 0, 0, 400, 1] "" 0 0 0 0 =
      some ((pushStyle construct [96, 0, 0, 0, 0, 400, 1] "" 0 0 0 0).get hsome) :=
    (Option.some_get _).symm
  have h := C6_single_font_resync.1 construct [96, 0, 0, 0, 0, 400, 1] "" 0 0 0 0
    ((pushStyle construct [96, 0, 0, 0, 0, 400, 1] "" 0 0 0 0).get hsome).1
    ((pushStyle construct [96, 0, 0, 0, 0, 400, 1] "" 0 0 0 0).get hsome).2.1
    ((pushStyle construct [96, 0, 0, 0, 0, 400, 1] "" 0 0 0 0).get hsome).2.2
    96 hb rfl
  rw [hb, Option.map_some', h]
  decide

/-- Claim C7, witness: the decode/pack roundtrip at the concrete pattern 0xFFEEDDCC. -/
theorem C7_witness :
    (getColorFromARGB 4293844428).alpha = 255 ∧
    packARGB (getColorFromARGB 4293844428) = 4293844428 := by
  have h := C7_color_roundtrip 4293844428 (by decide)
  exact ⟨h.1.trans (by decide), h.2.2.2.2.1⟩

/-- Claim C8, witness: two zero-mask pushStyle calls with entirely different out-of-band parameters coincide. -/
theorem C8_witness :
    pushStyle construct [0, 0, 0, 0, 0, 0, 0] "a" 1 2 3 4 =
      pushStyle construct [0, 0, 0, 0, 0, 0, 0] "b" 5 6 7 8 :=
  C8_out_of_band_gating.1 construct [0, 0, 0, 0, 0, 0, 0] "a" "b" 1 5 2 6 3 7 4 8 0 rfl
    (by decide) (by decide) (by decide) (by decide) (by decide)

/-- Claim C9, witness: a pushStyle call with only the decoration-style bit set performs zero `applyTextDecorations` runs. -/
theorem C9_witness :
    ((pushStyle construct [16, 0, 0, 0, 7, 0, 0] "" 0 0 0 0).map fun r => r.2.2) =
      some 0 := by
  have hsome : (pushStyle construct [16, 0, 0, 0, 7, 0, 0] "" 0 0 0 0).isSome := by decide
  have hb : pushStyle construct [16, 0, 0, 0, 7, 0, 0] "" 0 0 0 0 =
      some ((pushStyle construct [16, 0, 0, 0, 7, 0, 0] "" 0 0 0 0).get hsome) :=
    (Option.some_get _).symm
  have h := C9_no_redecoration construct [16, 0, 0, 0, 7, 0, 0] "" 0 0 0 0
    ((pushStyle construct [16, 0, 0, 0, 7, 0, 0] "" 0 0 0 0).get hsome).1
    ((pushStyle construct [16, 0, 0, 0, 7, 0, 0] "" 0 0 0 0).get hsome).2.1
    ((pushStyle construct [16, 0, 0, 0, 7, 0, 0] "" 0 0 0 0).get hsome).2.2
    16 hb rfl (by decide)
  rw [hb, Option.map_some']
  exact congrArg some h.1

/-- Claim C10, witness: the empty-string addText theorem applied to the freshly constructed builder. -/
theorem C10_witness : (addText construct ("")).nodes.length = construct.nodes.length + 1 := by
  have hnd : construct.nodes[1]? = some ((construct.nodes[1]?).get (by decide)) :=
    (Option.some_get _).symm
  exact (C10_addText_empty construct 1 _ rfl hnd).1

end Engine
